import Mathlib

/-!
# Verification of the HLH_hack rebalancing/backtest core

Shallow embedding of the repository's core engine code:

* `src/backtest/engine.py` — fixed-point guard pipeline (`clamp_target`,
  `apply_guards`, `guard_and_targets`), strategy loading (`load_strategy`),
  the pair-neutral-breakout target sizer (`compute_targets_pair_breakout`)
  with its regime state machine, and the `backtest` NAV accounting loop.
* `src/hl-vix-etf/core/vault.py` — `Vault` decimal accounting (`nav`,
  `price_per_share`, `deposit`).
* `src/hl-vix-etf/core/risk_guard.py` — hard guards (`check_leverage`,
  `check_asset_caps`).
* `src/hl-vix-etf/core/strategy.py` — `targets_mode_a`, `targets_mode_b`,
  `risk_parity_weights`.
* `src/hl-vix-etf/core/engine.py` — the Mode B leverage block of
  `engine_tick` and the adapter-failure branch of `engine_tick`.

Modelling conventions:
* Python `int` is `Int`; Python `//` (floor division) is `Int.fdiv`.
* Python `float` and `decimal.Decimal` are modelled as exact rationals `ℚ`;
  float literals such as `1e-9` are the corresponding decimal rationals.
* Python `int(x)` on a float (truncation toward zero) is `pyInt`.
* Python `dict` is an association list (`List (key × value)`) manipulated
  only through dict-like helpers (`dlookup`, `dgetD`, `dinsert`, ...), so
  keys stay unique and insertion order is preserved, as in CPython.
* Python functions `math.log` and `math.sqrt` (whose values are
  transcendental and play no arithmetic role in the claims) are supplied
  as an abstract parameter `MathOps`; every theorem quantifies over it.
* Code that can raise (`raise ValueError`, `ZeroDivisionError`, an unbound
  local `NameError`) returns `Except String _`.
-/

/-- Python `int(x)` applied to a float/Decimal: truncation toward zero. -/
def pyInt (q : ℚ) : Int := if 0 ≤ q then ⌊q⌋ else -⌊-q⌋

/-- `E6 = 10**6`, the fixed-point USD scale of `src/backtest/engine.py`. -/
def E6 : Int := 10 ^ 6

theorem pyInt_zero : pyInt 0 = 0 := by simp [pyInt]

theorem pyInt_intCast (n : ℤ) : pyInt (n : ℚ) = n := by
  unfold pyInt
  split
  · exact Int.floor_intCast n
  · rw [← Int.cast_neg, Int.floor_intCast, neg_neg]

/-! ## Dict helpers (CPython `dict` semantics on association lists) -/

/-- `d.get(k)` / `k in d`: first (unique) binding of `k`. -/
def dlookup {α β : Type} [DecidableEq α] (k : α) : List (α × β) → Option β
  | [] => none
  | p :: rest => if p.1 = k then some p.2 else dlookup k rest

/-- `d.get(k, dflt)`. -/
def dgetD {α β : Type} [DecidableEq α] (l : List (α × β)) (k : α) (dflt : β) : β :=
  (dlookup k l).getD dflt

/-- `d[k] = v`: overwrite in place (keeping the key's position) or append. -/
def dinsert {α β : Type} [DecidableEq α] (l : List (α × β)) (k : α) (v : β) :
    List (α × β) :=
  match l with
  | [] => [(k, v)]
  | p :: rest => if p.1 = k then (k, v) :: rest else p :: dinsert rest k v

/-- `d[k] += v` on a `defaultdict(int)`-style dict: add to the existing
binding, or append a fresh binding initialised at `0 + v`. -/
def daddAt (l : List (α × Int)) (k : α) (v : Int) [DecidableEq α] :
    List (α × Int) :=
  match l with
  | [] => [(k, v)]
  | p :: rest => if p.1 = k then (k, p.2 + v) :: rest else p :: daddAt rest k v

/-- `d[k].append(v)` on a dict of lists whose key is known to be present. -/
def dappend {α : Type} [DecidableEq α] (l : List (α × List ℚ)) (k : α) (v : ℚ) :
    List (α × List ℚ) :=
  l.map fun p => if p.1 = k then (p.1, p.2 ++ [v]) else p

theorem dlookup_mem {α β : Type} [DecidableEq α] {l : List (α × β)} {k : α}
    {v : β} (h : dlookup k l = some v) : (k, v) ∈ l := by
  induction l with
  | nil => simp [dlookup] at h
  | cons p rest ih =>
    by_cases hk : p.1 = k
    · simp only [dlookup, hk, if_true, Option.some.injEq] at h
      subst hk; subst h
      exact List.mem_cons_self _ _
    · simp only [dlookup, hk, if_false] at h
      exact List.mem_cons_of_mem _ (ih h)

theorem dinsert_mem {α β : Type} [DecidableEq α] {l : List (α × β)} {k : α}
    {v : β} {q : α × β} (h : q ∈ dinsert l k v) : q = (k, v) ∨ q ∈ l := by
  induction l with
  | nil => simpa [dinsert] using h
  | cons p rest ih =>
    by_cases hk : p.1 = k
    · simp only [dinsert, hk, if_true] at h
      rcases List.mem_cons.mp h with h1 | h1
      · exact Or.inl h1
      · exact Or.inr (List.mem_cons_of_mem _ h1)
    · simp only [dinsert, hk, if_false] at h
      rcases List.mem_cons.mp h with h1 | h1
      · exact Or.inr (h1 ▸ List.mem_cons_self _ _)
      · rcases ih h1 with h2 | h2
        · exact Or.inl h2
        · exact Or.inr (List.mem_cons_of_mem _ h2)

/-! ## `src/backtest/engine.py` — Config and the guard pipeline -/

/-- `Config` dataclass of `src/backtest/engine.py` (defaults as in source;
`perSymbolMaxUSD` defaults to `{"default": 250000}` via `__post_init__`). -/
structure Config where
  turnoverCapBps : Int := 1000
  maxNetDeltaUSD : ℚ := 50000
  perSymbolMaxUSD : List (String × ℚ) := [("default", 250000)]
  cooldownSeconds : Int := 3600
  feeBps : ℚ := 5
  slipBps : ℚ := 10
  leverage : ℚ := 1
  rebalanceThresholdBps : ℚ := 0
deriving Repr

/-- `cfg.perSymbolMaxUSD.get(sym, cfg.perSymbolMaxUSD.get('default', 250000))`
scaled by `E6` and truncated, as in `clamp_target`. -/
def capE6 (cfg : Config) (sym : String) : Int :=
  let cap_usd : ℚ :=
    match dlookup sym cfg.perSymbolMaxUSD with
    | some v => v
    | none => (dlookup "default" cfg.perSymbolMaxUSD).getD 250000
  pyInt (cap_usd * (E6 : ℚ))

/-- `clamp_target(sym, target, cfg)`. -/
def clamp_target (sym : String) (target : Int) (cfg : Config) : Int :=
  let cap := capE6 cfg sym
  if target > cap then cap
  else if target < -cap then -cap
  else target

/-- Sum of a dict's values (`sum(d.values())`). -/
def sumVals (l : List (String × Int)) : Int := (l.map (·.2)).sum

/-- Guard stage 1 of `apply_guards`: per-symbol cap applied to every target. -/
def clampAll (targets : List (String × Int)) (cfg : Config) :
    List (String × Int) :=
  targets.map fun p => (p.1, clamp_target p.1 p.2 cfg)

/-- Guard stage 2 of `apply_guards`: net-delta centering — if
`|sum(targets)| > int(maxNetDeltaUSD * E6)`, subtract
`sum(targets) // len(targets)` from every target. -/
def centerStep (t1 : List (String × Int)) (cfg : Config) :
    List (String × Int) :=
  let intended := sumVals t1
  if |intended| > pyInt (cfg.maxNetDeltaUSD * (E6 : ℚ)) then
    let N : Int := max (t1.length : Int) 1
    let adj := Int.fdiv intended N
    t1.map fun p => (p.1, p.2 - adj)
  else t1

/-- Gross turnover of `apply_guards` stage 3: sum of absolute deltas
(target minus current position) over the target dict's keys. -/
def grossOf (current t2 : List (String × Int)) : Int :=
  ((t2.map fun p => (p.1, p.2 - dgetD current p.1 0)).map fun p => |p.2|).sum

/-- `(scale_num, scale_den)` of `apply_guards` stage 3:
`(gmax, gross)` when `gross > gmax and gross > 0`, else `(1, 1)`, with
`gmax = (nav * cfg.turnoverCapBps) // 10000`. -/
def scalePair (nav : Int) (current t2 : List (String × Int))
    (cfg : Config) : Int × Int :=
  let gross := grossOf current t2
  let gmax := Int.fdiv (nav * cfg.turnoverCapBps) 10000
  if gross > gmax ∧ gross > 0 then (gmax, gross) else (1, 1)

/-- Guard stage 3 of `apply_guards`: turnover cap — every delta is scaled by
`scale_num // scale_den` and applied to the current position. -/
def turnoverStep (nav : Int) (current t2 : List (String × Int))
    (cfg : Config) : List (String × Int) :=
  let sc := scalePair nav current t2 cfg
  t2.map fun p =>
    (p.1, dgetD current p.1 0 + Int.fdiv ((p.2 - dgetD current p.1 0) * sc.1) sc.2)

/-- `apply_guards(nav, current, targets, cfg)`: returns the capped/centered
target dict and the turnover-capped final position dict. -/
def apply_guards (nav : Int) (current targets : List (String × Int))
    (cfg : Config) : List (String × Int) × List (String × Int) :=
  (centerStep (clampAll targets cfg) cfg,
    turnoverStep nav current (centerStep (clampAll targets cfg) cfg) cfg)

/-- Regime of the pair strategy (`state['regime']`). -/
inductive Regime
  | neutral
  | long
  | short
deriving DecidableEq, Repr

/-- The mutable pair state dict: `regime`, `hold`, and `entry_nav_e6`
(absent until first written — the code reads it with default `nav`). -/
structure PairState where
  regime : Regime
  hold : Int
  entry_nav_e6 : Option Int
deriving Repr

/-- The resolved parameter dict of `compute_targets_pair_breakout`
(defaults per source: lookback 24, k_in 2.0 — `z_k` accepted as a legacy
alias — k_out `max(1.0, k_in/2)`, minHoldSteps 0,
neutralDriftThresholdBps 0, regimeStopBps 50, regimeTPBps 100,
maxSkewBps 100, betaMin 0.2, betaMax 5.0, useBetaHedge false). -/
structure PairParams where
  lookback : Int
  k_in : ℚ
  k_out : ℚ
  minHoldSteps : Int
  neutralDriftThresholdBps : ℚ
  regimeStopBps : ℚ
  regimeTPBps : ℚ
  maxSkewBps : ℚ
  betaMin : ℚ
  betaMax : ℚ
  useBetaHedge : Bool
deriving Repr


/-- The fully-defaulted pair parameter dict (lookback 24, k_in 2,
k_out max(1, k_in/2) = 1, minHoldSteps 0, neutralDriftThresholdBps 0,
regimeStopBps 50, regimeTPBps 100, maxSkewBps 100, betaMin 0.2,
betaMax 5.0, useBetaHedge false). -/
def defaultPairParams : PairParams := ⟨24, 2, 1, 0, 0, 50, 100, 100, 1 / 5, 5, false⟩

/-- One `longs`/`shorts` entry of a fixed-bucket strategy. -/
structure BucketEntry where
  symbol : String
  bps : Int
deriving Repr

/-- Strategy JSON dict shape used by the backtest: optional `type` tag,
`longs`/`shorts` bucket lists, optional `symbols` list for the pair
strategy (`[]` models a missing/falsy entry). -/
structure Strategy where
  stype : Option String
  longs : List BucketEntry
  shorts : List BucketEntry
  symbols : List String
  params : PairParams
deriving Repr

/-- `sum_bps` of `load_strategy`. -/
def sum_bps (arr : List BucketEntry) : Int := (arr.map (·.bps)).sum

/-- `load_strategy`: for an untyped (fixed-bucket) strategy dict, raise
unless both bps sums are exactly 10000; otherwise return it unchanged. -/
def load_strategy (s : Strategy) : Except String Strategy :=
  if s.stype = none then
    if sum_bps s.longs ≠ 10000 ∨ sum_bps s.shorts ≠ 10000 then
      .error "bps sum must be 10000 each for longs and shorts"
    else .ok s
  else .ok s

/-- `guard_and_targets(nav, current, strat, cfg)`: raw fixed-bucket targets
accumulated into a `defaultdict(int)`, then `apply_guards`. -/
def guard_and_targets (nav : Int) (current : List (String × Int))
    (strat : Strategy) (cfg : Config) :
    List (String × Int) × List (String × Int) :=
  let long_bucket := pyInt ((nav : ℚ) * cfg.leverage)
  let short_bucket := pyInt ((nav : ℚ) * cfg.leverage)
  let t0 := strat.longs.foldl
    (fun acc L => daddAt acc L.symbol (Int.fdiv (long_bucket * L.bps) 10000)) []
  let t1 := strat.shorts.foldl
    (fun acc S => daddAt acc S.symbol (-(Int.fdiv (short_bucket * S.bps) 10000))) t0
  apply_guards nav current t1 cfg

/-! ## Claim C5 — `load_strategy` bps validation -/

/-- A strategy carrying an explicit `type` tag whose bucket bps sums are not
10000 (both sums are 0). -/
def c5_typed_strategy : Strategy := ⟨some "pair_neutral_breakout", [], [], ["BTC", "ETH"], defaultPairParams⟩

/-- C5 counterexample: `load_strategy` does not raise on every strategy whose
bucket bps sums differ from 10000 — a strategy dict that carries a `type` key
is returned unchanged without any bps validation, refuting the claim as
stated. -/
theorem C5_counterexample_typed_strategy_not_rejected :
    load_strategy c5_typed_strategy = .ok c5_typed_strategy ∧
      sum_bps c5_typed_strategy.longs ≠ 10000 ∧
      sum_bps c5_typed_strategy.shorts ≠ 10000 := by
  refine ⟨by simp [load_strategy, c5_typed_strategy], by decide, by decide⟩

/-- C5 (amended): the bps-sum check of `load_strategy` applies exactly to the
untyped (backward-compatible fixed-bucket) strategy format: a strategy with
no `type` key is rejected at load iff a bucket bps sum differs from 10000,
and every other strategy is returned unchanged. -/
theorem C5_load_strategy_untyped_validation (s : Strategy) :
    (s.stype = none → (sum_bps s.longs ≠ 10000 ∨ sum_bps s.shorts ≠ 10000) →
      load_strategy s = .error "bps sum must be 10000 each for longs and shorts") ∧
    ((s.stype ≠ none ∨ (sum_bps s.longs = 10000 ∧ sum_bps s.shorts = 10000)) →
      load_strategy s = .ok s) := by
  constructor
  · intro h hbad
    simp [load_strategy, h, hbad]
  · intro h
    rcases h with h | ⟨h1, h2⟩
    · simp [load_strategy, h]
    · by_cases hn : s.stype = none <;> simp [load_strategy, hn, h1, h2]

/-- C5 witness: a malformed untyped strategy is rejected and a well-formed
one is returned unchanged. -/
theorem C5_load_strategy_untyped_validation_witness :
    load_strategy ⟨none, [⟨"BTC", 5000⟩], [⟨"ETH", 10000⟩], [], defaultPairParams⟩ =
        .error "bps sum must be 10000 each for longs and shorts" ∧
      load_strategy ⟨none, [⟨"BTC", 10000⟩], [⟨"ETH", 10000⟩], [], defaultPairParams⟩ =
        .ok ⟨none, [⟨"BTC", 10000⟩], [⟨"ETH", 10000⟩], [], defaultPairParams⟩ :=
  ⟨(C5_load_strategy_untyped_validation _).1 rfl (Or.inl (by decide)),
   (C5_load_strategy_untyped_validation _).2 (Or.inr (by exact ⟨by decide, by decide⟩))⟩

/-! ## Claim C8 — example scenario targets -/

/-- The C8 scenario config exactly as the claim states it (leverage 1.0,
turnoverCapBps 10000, cooldown 0), every other field at the source default —
in particular `perSymbolMaxUSD = {"default": 250000}`. -/
def c8_cfg : Config := { turnoverCapBps := 10000, cooldownSeconds := 0, leverage := 1 }

/-- The C8 scenario strategy: `longs=[{BTC,10000}]`, `shorts=[{ETH,10000}]`. -/
def c8_strategy : Strategy := ⟨none, [⟨"BTC", 10000⟩], [⟨"ETH", 10000⟩], [], defaultPairParams⟩

/-- The C8 scenario config with the per-symbol cap raised to 1,000,000 USD so
that the per-symbol clamp does not bind. -/
def c8_cfg_bigcap : Config :=
  { turnoverCapBps := 10000, cooldownSeconds := 0, leverage := 1,
    perSymbolMaxUSD := [("default", 1000000)] }

/-- C8 counterexample: under the scenario's stated config (defaults
elsewhere), the first-step targets are clamped by the default 250,000 USD
per-symbol cap to ±250000e6, not the claimed ±1000000e6. -/
theorem C8_counterexample_default_cap_clamps :
    (guard_and_targets (10 ^ 12) [] c8_strategy c8_cfg).1 =
        [("BTC", 250000000000), ("ETH", -250000000000)] ∧
      (guard_and_targets (10 ^ 12) [] c8_strategy c8_cfg).1 ≠
        [("BTC", 1000000000000), ("ETH", -1000000000000)] := by
  have h1 : (guard_and_targets (10 ^ 12) [] c8_strategy c8_cfg).1 =
      [("BTC", 250000000000), ("ETH", -250000000000)] := by
    simp [guard_and_targets, apply_guards, clampAll, centerStep, turnoverStep,
      scalePair, grossOf, clamp_target, capE6, sumVals, dgetD, dlookup, daddAt,
      c8_strategy, c8_cfg, pyInt, E6]
    norm_num [Int.fdiv_eq_ediv, dlookup, dgetD]
  exact ⟨h1, by rw [h1]; decide⟩

/-- C8 (amended): in the stated scenario with the per-symbol cap set high
enough not to bind (1,000,000 USD), the first step produces the target dict
`{BTC:+1,000,000, ETH:-1,000,000}` USD (±1000000e6 fixed-point) exactly.
(The final executed positions are nevertheless throttled to ±500000e6,
because the two-sided gross turnover 2,000,000 USD exceeds the
turnoverCapBps=10000 allowance of 1,000,000 USD.) -/
theorem C8_first_step_targets_exact :
    guard_and_targets (10 ^ 12) [] c8_strategy c8_cfg_bigcap =
      ([("BTC", 1000000000000), ("ETH", -1000000000000)],
        [("BTC", 500000000000), ("ETH", -500000000000)]) := by
  simp [guard_and_targets, apply_guards, clampAll, centerStep, turnoverStep,
    scalePair, grossOf, clamp_target, capE6, sumVals, dgetD, dlookup, daddAt,
    c8_strategy, c8_cfg_bigcap, pyInt, E6]
  norm_num [Int.fdiv_eq_ediv, dlookup, dgetD]


/-! ## Claim C3 — turnover scaling and delta signs -/

theorem dlookup_map_val {α β γ : Type} [DecidableEq α] (f : α → β → γ)
    (l : List (α × β)) (k : α) :
    dlookup k (l.map fun p => (p.1, f p.1 p.2)) = (dlookup k l).map (f k) := by
  induction l with
  | nil => simp [dlookup]
  | cons p rest ih =>
    by_cases hk : p.1 = k
    · subst hk; simp [dlookup, ih]
    · simp [dlookup, hk, ih]

theorem turnoverStep_lookup (nav : Int) (current t2 : List (String × Int))
    (cfg : Config) (s : String) :
    dlookup s (turnoverStep nav current t2 cfg) =
      (dlookup s t2).map fun v =>
        dgetD current s 0 +
          Int.fdiv ((v - dgetD current s 0) * (scalePair nav current t2 cfg).1)
            (scalePair nav current t2 cfg).2 :=
  dlookup_map_val
    (fun k v => dgetD current k 0 +
      Int.fdiv ((v - dgetD current k 0) * (scalePair nav current t2 cfg).1)
        (scalePair nav current t2 cfg).2) t2 s

theorem fdiv_nonpos_of_nonpos_of_pos {a b : Int} (h1 : a ≤ 0) (h2 : 0 < b) :
    Int.fdiv a b ≤ 0 := by
  rw [Int.fdiv_eq_ediv _ h2.le]
  calc a / b ≤ 0 / b := Int.ediv_le_ediv h2 h1
  _ = 0 := Int.zero_ediv b

/-- C3 counterexample: with the turnover cap active, a raw per-symbol delta
of +1 is scaled by floor division down to 0, so `sign(finalDelta) = 0` is
not equal to `sign(rawDelta) = +1`. Here nav=10000 (e6), turnoverCapBps=1000
(gmax=1000), raw deltas are `{A:+1, B:+10000}` (gross=10001 > gmax, cap
active), and symbol `A`'s final delta is 0 while its raw delta is +1. -/
theorem C3_counterexample_small_delta_truncates_to_zero :
    (dgetD (apply_guards 10000 [] [("A", 1), ("B", 10000)]
        { turnoverCapBps := 1000 }).1 "A" 0 - dgetD ([] : List (String × Int)) "A" 0) = 1 ∧
      (dgetD (apply_guards 10000 [] [("A", 1), ("B", 10000)]
        { turnoverCapBps := 1000 }).2 "A" 0 - dgetD ([] : List (String × Int)) "A" 0) = 0 := by
  constructor <;>
  · simp [apply_guards, clampAll, centerStep, turnoverStep, scalePair, grossOf,
      clamp_target, capE6, sumVals, dgetD, dlookup, pyInt, E6]
    norm_num [Int.fdiv_eq_ediv, dlookup, dgetD]

/-- C3 (amended): turnover-cap scaling weakly preserves the sign of every
per-symbol delta — the scaled (final) delta never has the opposite sign of
the raw (post-cap/centering) delta, though floor division may truncate a
small positive delta to zero: for every symbol and every nonnegative nav
and turnover cap, `0 ≤ rawDelta_s * finalDelta_s`. -/
theorem C3_turnover_scaling_weak_sign_preservation (nav : Int)
    (current targets : List (String × Int)) (cfg : Config)
    (hnav : 0 ≤ nav) (hcap : 0 ≤ cfg.turnoverCapBps) (s : String) :
    0 ≤ (dgetD (apply_guards nav current targets cfg).1 s 0 - dgetD current s 0) *
        (dgetD (apply_guards nav current targets cfg).2 s 0 - dgetD current s 0) := by
  have hgmax0 : 0 ≤ Int.fdiv (nav * cfg.turnoverCapBps) 10000 :=
    Int.fdiv_nonneg (mul_nonneg hnav hcap) (by norm_num)
  rcases h : dlookup s (centerStep (clampAll targets cfg) cfg) with _ | v
  · have e1 : dgetD (apply_guards nav current targets cfg).1 s 0 = 0 := by
      simp only [apply_guards, dgetD, h, Option.getD_none]
    have e2 : dgetD (apply_guards nav current targets cfg).2 s 0 = 0 := by
      simp only [apply_guards, dgetD, turnoverStep_lookup, h, Option.map_none',
        Option.getD_none]
    rw [e1, e2]
    simpa using mul_self_nonneg (0 - dgetD current s 0)
  · have e1 : dgetD (apply_guards nav current targets cfg).1 s 0 = v := by
      simp only [apply_guards, dgetD, h, Option.getD_some]
    have e2 : dgetD (apply_guards nav current targets cfg).2 s 0 =
        dgetD current s 0 +
          Int.fdiv ((v - dgetD current s 0) *
              (scalePair nav current (centerStep (clampAll targets cfg) cfg) cfg).1)
            (scalePair nav current (centerStep (clampAll targets cfg) cfg) cfg).2 := by
      simp only [apply_guards, dgetD, turnoverStep_lookup, h, Option.map_some',
        Option.getD_some]
    rw [e1, e2, add_sub_cancel_left]
    simp only [scalePair]
    split_ifs with hact
    · rcases le_or_lt 0 (v - dgetD current s 0) with hv | hv
      · exact mul_nonneg hv (Int.fdiv_nonneg (mul_nonneg hv hgmax0) hact.2.le)
      · have hnum : (v - dgetD current s 0) *
            (Int.fdiv (nav * cfg.turnoverCapBps) 10000) ≤ 0 :=
          mul_nonpos_iff.mpr (Or.inr ⟨hv.le, hgmax0⟩)
        have hden := fdiv_nonpos_of_nonpos_of_pos hnum hact.2
        have h3 := mul_nonneg (neg_nonneg.mpr hv.le) (neg_nonneg.mpr hden)
        rw [neg_mul_neg] at h3
        exact h3
    · simp only [Int.fdiv_one, mul_one]
      exact mul_self_nonneg (v - dgetD current s 0)

/-- C3 witness: the weak sign-preservation theorem applied at the
counterexample's concrete inputs. -/
theorem C3_turnover_scaling_weak_sign_preservation_witness :
    0 ≤ (dgetD (apply_guards 10000 [] [("A", 1), ("B", 10000)]
        { turnoverCapBps := 1000 }).1 "A" 0 - dgetD ([] : List (String × Int)) "A" 0) *
        (dgetD (apply_guards 10000 [] [("A", 1), ("B", 10000)]
          { turnoverCapBps := 1000 }).2 "A" 0 - dgetD ([] : List (String × Int)) "A" 0) :=
  C3_turnover_scaling_weak_sign_preservation 10000 [] [("A", 1), ("B", 10000)]
    { turnoverCapBps := 1000 } (by norm_num) (by norm_num) "A"

/-! ## Claim C4 — guard-pipeline idempotence -/

theorem clamp_target_idem (s : String) (t : Int) (cfg : Config)
    (h : 0 ≤ capE6 cfg s) :
    clamp_target s (clamp_target s t cfg) cfg = clamp_target s t cfg := by
  simp only [clamp_target]
  split_ifs <;> omega

theorem clampAll_idem (targets : List (String × Int)) (cfg : Config)
    (h : ∀ p ∈ targets, 0 ≤ capE6 cfg p.1) :
    clampAll (clampAll targets cfg) cfg = clampAll targets cfg := by
  unfold clampAll
  rw [List.map_map]
  apply List.map_congr_left
  intro p hp
  simp only [Function.comp]
  rw [clamp_target_idem p.1 p.2 cfg (h p hp)]

/-- The C4 counterexample config: per-symbol cap of 10 USD for symbol `A`,
1000 USD otherwise, and a very small net-delta allowance. -/
def c4_cfg : Config :=
  { maxNetDeltaUSD := 100 / 1000000, perSymbolMaxUSD := [("A", 10 / 1000000), ("default", 1000 / 1000000)],
    turnoverCapBps := 10000 }

/-- C4 counterexample: `apply_guards` is not idempotent on its own output.
With per-symbol caps `{A:10, default:1000}` (fixed-point 10 and 1000) and a
net-delta limit of 100, raw targets `{A:10, B:1000}` survive the per-symbol
clamp, but centering subtracts 505 from each, pushing `A` to −495 — far
beyond its own ±10 cap. Re-applying the pipeline to this output clamps `A`
again (and re-centers), so the second application's target dict differs from
the first's. -/
theorem C4_counterexample_not_idempotent :
    (apply_guards 4000 [] [("A", 10), ("B", 1000)] c4_cfg).1 =
        [("A", -495), ("B", 495)] ∧
      (apply_guards 4000 []
          (apply_guards 4000 [] [("A", 10), ("B", 1000)] c4_cfg).1 c4_cfg).1 =
        [("A", -252), ("B", 253)] := by
  have h1 : (apply_guards 4000 [] [("A", 10), ("B", 1000)] c4_cfg).1 =
      [("A", -495), ("B", 495)] := by
    simp [apply_guards, clampAll, centerStep, clamp_target, capE6, sumVals,
      dgetD, dlookup, c4_cfg, pyInt, E6]
    norm_num [Int.fdiv_eq_ediv]
  refine ⟨h1, ?_⟩
  rw [h1]
  simp [apply_guards, clampAll, centerStep, clamp_target, capE6, sumVals,
    dgetD, dlookup, c4_cfg, pyInt, E6]
  norm_num [Int.fdiv_eq_ediv]

/-- C4 (amended): the guard pipeline is idempotent on its own output
whenever the per-symbol caps are nonnegative and the first application does
not trigger net-delta centering (the post-clamp target sum is within the
net-delta limit): re-applying `apply_guards` to the guarded target dict with
the same nav, current positions and config reproduces both the target dict
and the final position dict exactly. (Centering can overshoot a per-symbol
cap, as the counterexample shows, so it must be excluded.) -/
theorem C4_apply_guards_idempotent_without_centering
    (nav : Int) (current targets : List (String × Int)) (cfg : Config)
    (hcap : ∀ p ∈ targets, 0 ≤ capE6 cfg p.1)
    (hcenter : ¬(|sumVals (clampAll targets cfg)| >
      pyInt (cfg.maxNetDeltaUSD * (E6 : ℚ)))) :
    apply_guards nav current (apply_guards nav current targets cfg).1 cfg =
      apply_guards nav current targets cfg := by
  have hc1 : centerStep (clampAll targets cfg) cfg = clampAll targets cfg := by
    simp [centerStep, hcenter]
  have hcc := clampAll_idem targets cfg hcap
  simp only [apply_guards, hc1, hcc]

/-- C4 witness: idempotence at concrete inputs where centering is inactive. -/
theorem C4_apply_guards_idempotent_without_centering_witness :
    (∀ p ∈ [(("BTC" : String), (100 : Int)), ("ETH", -50)], 0 ≤ capE6 {} p.1) ∧
      ¬(|sumVals (clampAll [(("BTC" : String), (100 : Int)), ("ETH", -50)] {})| >
        pyInt (Config.maxNetDeltaUSD {} * (E6 : ℚ))) ∧
      apply_guards 1000 [("BTC", 10)]
          (apply_guards 1000 [("BTC", 10)] [("BTC", 100), ("ETH", -50)] {}).1 {} =
        apply_guards 1000 [("BTC", 10)] [("BTC", 100), ("ETH", -50)] {} := by
  have hcap : ∀ p ∈ [(("BTC" : String), (100 : Int)), ("ETH", -50)], 0 ≤ capE6 {} p.1 := by
    intro p hp
    fin_cases hp <;> simp [capE6, dlookup, E6] <;> norm_num [pyInt]
  have hcenter : ¬(|sumVals (clampAll [(("BTC" : String), (100 : Int)), ("ETH", -50)] {})| >
      pyInt (Config.maxNetDeltaUSD {} * (E6 : ℚ))) := by
    simp [clampAll, clamp_target, capE6, sumVals, dlookup, pyInt, E6]
    norm_num
  exact ⟨hcap, hcenter,
    C4_apply_guards_idempotent_without_centering 1000 [("BTC", 10)]
      [("BTC", 100), ("ETH", -50)] {} hcap hcenter⟩

/-! ## `src/hl-vix-etf/core/vault.py` — Vault accounting -/

/-- The `Vault` of `src/hl-vix-etf/core/vault.py`: cash, per-asset USD
notional positions (`positions_usd["BTC"/"ETH"]`), total shares, and the
optional last-seen prices (`last_px` starts out empty). Decimals are
modelled as exact rationals. -/
structure Vault where
  cash : ℚ
  pos_btc : ℚ
  pos_eth : ℚ
  total_shares : ℚ
  last_px_btc : Option ℚ
  last_px_eth : Option ℚ
deriving Repr

/-- The cash value produced by `Vault.nav(pxs)`: PnL accrued from each
stored last price (quantity implied at the previous price times the price
move, per asset, skipped unless the stored last price is positive). -/
def Vault.navVal (v : Vault) (pxs : ℚ × ℚ) : ℚ :=
  let cash1 :=
    match v.last_px_btc with
    | some lp =>
      if lp > 0 then v.cash + (if lp ≠ 0 then v.pos_btc / lp else 0) * (pxs.1 - lp)
      else v.cash
    | none => v.cash
  match v.last_px_eth with
  | some lp =>
    if lp > 0 then cash1 + (if lp ≠ 0 then v.pos_eth / lp else 0) * (pxs.2 - lp)
    else cash1
  | none => cash1

/-- `Vault.nav(pxs)`: accrues PnL into `cash`, records the new prices, and
returns the updated cash as the NAV, together with the mutated vault. -/
def Vault.nav (v : Vault) (pxs : ℚ × ℚ) : ℚ × Vault :=
  (v.navVal pxs,
    { v with cash := v.navVal pxs, last_px_btc := some pxs.1, last_px_eth := some pxs.2 })

/-- `Vault.price_per_share(pxs)` = `nav(pxs) / total_shares` if shares are
nonzero, else 0 (together with `nav`'s state mutation). -/
def Vault.price_per_share (v : Vault) (pxs : ℚ × ℚ) : ℚ × Vault :=
  let r := v.nav pxs
  ((if r.2.total_shares ≠ 0 then r.1 / r.2.total_shares else 0), r.2)

/-- `Vault.deposit(usd, pxs)`: accrue NAV, compute the price per share
(1 when no shares are outstanding), mint `usd / pps` shares (or `usd`
shares if pps is zero), and add the cash. Returns the minted shares and the
mutated vault. -/
def Vault.deposit (v : Vault) (usd : ℚ) (pxs : ℚ × ℚ) : ℚ × Vault :=
  let r := v.nav pxs
  let p := if r.2.total_shares > 0 then r.2.price_per_share pxs else (1, r.2)
  let shares := if p.1 ≠ 0 then usd / p.1 else usd
  (shares, { p.2 with cash := p.2.cash + usd, total_shares := p.2.total_shares + shares })

/-- After an accrual at `pxs`, the NAV value at the same `pxs` is just the
stored cash: every PnL term is zero because the stored last prices equal
the new prices. -/
theorem Vault.navVal_accrued (c pb pe S : ℚ) (pxs : ℚ × ℚ) :
    (Vault.mk c pb pe S (some pxs.1) (some pxs.2)).navVal pxs = c := by
  unfold Vault.navVal
  simp only
  split_ifs <;> simp

/-! ## Claim C10 — deposit preserves price per share -/

theorem Vault.pps_val (v : Vault) (pxs : ℚ × ℚ) :
    (v.price_per_share pxs).1 =
      if v.total_shares ≠ 0 then v.navVal pxs / v.total_shares else 0 := rfl

theorem Vault.deposit_spec (v : Vault) (usd : ℚ) (pxs : ℚ × ℚ)
    (hS : 0 < v.total_shares) (hn : v.navVal pxs ≠ 0) :
    v.deposit usd pxs =
      (usd / (v.navVal pxs / v.total_shares),
        Vault.mk (v.navVal pxs + usd) v.pos_btc v.pos_eth
          (v.total_shares + usd / (v.navVal pxs / v.total_shares))
          (some pxs.1) (some pxs.2)) := by
  have hps : v.navVal pxs / v.total_shares ≠ 0 := div_ne_zero hn (ne_of_gt hS)
  simp only [Vault.deposit, Vault.nav, Vault.price_per_share]
  rw [if_pos hS, Vault.navVal_accrued]
  rw [if_pos (ne_of_gt hS), if_pos hps]

/-- C10 counterexample: a vault with negative cash (so a nonzero but
negative price per share) and a deposit that exactly wipes out the NAV: the
mint of `usd/pps = -10000` shares brings `total_shares` to 0, after which
`price_per_share` returns the 0 fallback instead of the previous pps, so
the claim fails at this input even though `total_shares > 0` and `pps ≠ 0`
held before the deposit. -/
theorem C10_counterexample_deposit_wipes_out_vault :
    (Vault.mk (-10) 0 0 10000 none none).total_shares > 0 ∧
      ((Vault.mk (-10) 0 0 10000 none none).price_per_share (60000, 2400)).1 ≠ 0 ∧
      (((Vault.mk (-10) 0 0 10000 none none).deposit 10 (60000, 2400)).2.price_per_share
          (60000, 2400)).1 ≠
        ((Vault.mk (-10) 0 0 10000 none none).price_per_share (60000, 2400)).1 := by
  refine ⟨by norm_num, ?_, ?_⟩ <;>
    norm_num [Vault.price_per_share, Vault.deposit, Vault.nav, Vault.navVal]

/-- C10 (amended): `Vault.deposit` preserves the price per share for every
vault with positive `total_shares` and nonzero price per share at the given
prices, for every deposit amount that does not wipe out the vault
(`nav + usd ≠ 0`): the post-deposit `price_per_share` at the same prices
equals the pre-deposit one, the deposit mints exactly `usd / pps` shares,
and adds exactly `usd` cash. (If `usd = -nav` the mint cancels all shares
and `price_per_share` collapses to its 0 fallback, as the counterexample
shows.) -/
theorem C10_deposit_preserves_price_per_share (v : Vault) (usd : ℚ)
    (pxs : ℚ × ℚ) (hS : 0 < v.total_shares)
    (hpps : (v.price_per_share pxs).1 ≠ 0)
    (hnz : v.navVal pxs + usd ≠ 0) :
    ((v.deposit usd pxs).2.price_per_share pxs).1 = (v.price_per_share pxs).1 ∧
      (v.deposit usd pxs).1 = usd / (v.price_per_share pxs).1 ∧
      (v.deposit usd pxs).2.cash = v.navVal pxs + usd := by
  have hbefore : (v.price_per_share pxs).1 = v.navVal pxs / v.total_shares := by
    rw [Vault.pps_val, if_pos (ne_of_gt hS)]
  have hn : v.navVal pxs ≠ 0 := by
    intro h0
    exact hpps (by rw [hbefore, h0, zero_div])
  have hdep := Vault.deposit_spec v usd pxs hS hn
  set N := v.navVal pxs with hN
  set S := v.total_shares with hSd
  have hS2 : S + usd / (N / S) = S * (N + usd) / N := by
    field_simp
    ring
  have hS2ne : S * (N + usd) / N ≠ 0 := div_ne_zero (mul_ne_zero (ne_of_gt hS) hnz) hn
  refine ⟨?_, ?_, ?_⟩
  · rw [hdep, hbefore]
    dsimp only
    rw [Vault.pps_val]
    dsimp only
    rw [Vault.navVal_accrued, hS2, if_pos hS2ne]
    rw [div_eq_div_iff hS2ne (ne_of_gt hS)]
    field_simp
    ring
  · rw [hdep, hbefore]
  · rw [hdep]

/-- C10 witness: a healthy vault (cash 10000, 10000 shares, pps 1) with a
5000 USD deposit keeps pps = 1. -/
theorem C10_deposit_preserves_price_per_share_witness :
    (0 : ℚ) < (Vault.mk 10000 0 0 10000 none none).total_shares ∧
      ((Vault.mk 10000 0 0 10000 none none).price_per_share (60000, 2400)).1 ≠ 0 ∧
      (Vault.mk 10000 0 0 10000 none none).navVal (60000, 2400) + 5000 ≠ 0 ∧
      (((Vault.mk 10000 0 0 10000 none none).deposit 5000 (60000, 2400)).2.price_per_share
          (60000, 2400)).1 =
        ((Vault.mk 10000 0 0 10000 none none).price_per_share (60000, 2400)).1 :=
  ⟨by norm_num, by norm_num [Vault.price_per_share, Vault.nav, Vault.navVal],
    by norm_num [Vault.navVal],
    (C10_deposit_preserves_price_per_share (Vault.mk 10000 0 0 10000 none none)
      5000 (60000, 2400) (by norm_num)
      (by norm_num [Vault.price_per_share, Vault.nav, Vault.navVal])
      (by norm_num [Vault.navVal])).1⟩

/-! ## Claim C1 — `engine_tick` adapter-failure branch -/

/-- The part of an `engine_tick` result row relevant to the failure branch
(`src/hl-vix-etf/core/engine.py`, the `except` around
`adapter.get_prices()` / `adapter.get_funding_bp_day()`): the reported
`nav_before`, and the `status` / `err_reason` fields. -/
structure TickRow where
  nav_before : ℚ
  status : String
  err_reason : String
deriving Repr

/-- The adapter-failure branch of `engine_tick`: when `get_prices` or
`get_funding_bp_day` raises, the engine evaluates
`nav_before = float(vault.nav((60_000.0, 2_400.0)))` — a *mutating* call at
hard-coded fallback prices — and returns a minimal `_row` with status
`"ERROR"`. The mutated vault is returned alongside the row. -/
def engine_tick_fetch_error (v : Vault) (err : String) : TickRow × Vault :=
  let r := v.nav (60000, 2400)
  ({ nav_before := r.1, status := "ERROR", err_reason := err }, r.2)

/-- C1: the claim is right and the code is wrong. On an adapter failure the
step does produce an explicit `"ERROR"` row, but the vault is *not* left
unmutated: for a vault holding 1000 USD of BTC last marked at 50000, the
error-path `vault.nav((60_000, 2_400))` call accrues
`(1000/50000)*(60000-50000) = 200` of PnL at the hard-coded fallback prices
into cash (10000 → 10200) and overwrites both last prices. -/
theorem C1_adapter_error_mutates_vault :
    (engine_tick_fetch_error (Vault.mk 10000 1000 0 10000 (some 50000) none)
        "adapter not ready").1.status = "ERROR" ∧
      (engine_tick_fetch_error (Vault.mk 10000 1000 0 10000 (some 50000) none)
          "adapter not ready").2.cash = 10200 ∧
      (Vault.mk 10000 1000 0 10000 (some 50000) none).cash = 10000 ∧
      (engine_tick_fetch_error (Vault.mk 10000 1000 0 10000 (some 50000) none)
          "adapter not ready").2.last_px_btc = some 60000 :=
  ⟨rfl, by norm_num [engine_tick_fetch_error, Vault.nav, Vault.navVal], rfl,
    rfl⟩

/-! ## `src/hl-vix-etf/core/risk_guard.py` and `core/strategy.py` -/

/-- `check_leverage(target_b, target_e, nav, L_max)`: raises on `nav <= 0`,
then on implied leverage above the cap. (The formatted number text of the
leverage error message is abstracted to a fixed string.) -/
def check_leverage (target_b target_e nav L_max : ℚ) : Except String Unit :=
  if nav ≤ 0 then .error "NAV must be positive"
  else if (|target_b| + |target_e|) / nav > L_max then .error "leverage exceeds cap"
  else .ok ()

/-- `check_asset_caps(target_b, target_e, nav, cap)`. -/
def check_asset_caps (target_b target_e nav cap : ℚ) : Except String Unit :=
  let limit := cap * nav
  if |target_b| > limit then .error "BTC target exceeds per-asset cap"
  else if |target_e| > limit then .error "ETH target exceeds per-asset cap"
  else .ok ()

/-- `targets_mode_a(nav, weights, L_base)` of `core/strategy.py`. -/
def targets_mode_a (nav : ℚ) (weights : List (String × ℚ)) (L_base : ℚ) :
    ℚ × ℚ × ℚ :=
  let L := L_base
  (nav * L * dgetD weights "BTC" 0, nav * L * dgetD weights "ETH" 0, L)

/-- `targets_mode_b(nav, weights, L_max, v_target_pct, v_proxy_pct)` of
`core/strategy.py` (legacy interface): the denominator is floored at
`eps = 1e-6` before the percent division. -/
def targets_mode_b (nav : ℚ) (weights : List (String × ℚ))
    (L_max v_target_pct v_proxy_pct : ℚ) : ℚ × ℚ × ℚ :=
  let eps : ℚ := 1 / 1000000
  let v_t := max v_target_pct 0 / 100
  let v_p := max v_proxy_pct eps / 100
  let L := min L_max (v_t / v_p)
  (nav * L * dgetD weights "BTC" 0, nav * L * dgetD weights "ETH" 0, L)

/-- `risk_parity_weights(sig_b, sig_e, sign_b, sign_e)` of
`core/strategy.py`: inverse-vol weights with caller-supplied signs,
normalised so the absolute values sum to 1; `(0.5, -0.5)` when both
accumulators vanish. Each positive sigma is floored at `1e-9` before
inversion. -/
def risk_parity_weights (sig_b sig_e sign_b sign_e : ℚ) : ℚ × ℚ :=
  let inv_b := if sig_b > 0 then 1 / max sig_b (1 / 1000000000) else 0
  let inv_e := if sig_e > 0 then 1 / max sig_e (1 / 1000000000) else 0
  let wB_raw := inv_b * (if sign_b ≥ 0 then 1 else -1)
  let wE_raw := inv_e * (if sign_e ≥ 0 then 1 else -1)
  let s := |wB_raw| + |wE_raw|
  if s = 0 then (1 / 2, -1 / 2) else (wB_raw / s, wE_raw / s)

/-- Abstract interface for the transcendental float functions `math.log`
and `math.sqrt`; every theorem quantifies over it, adding pointwise facts
(such as `sqrt 0 = 0`) as hypotheses where needed. -/
structure MathOps where
  log : ℚ → ℚ
  sqrt : ℚ → ℚ

/-- The spread z-score block of `compute_targets_pair_breakout`
(`src/backtest/engine.py`): once the trailing window holds at least
`max(lookback // 2, 8)` samples, `z = (s - mean) / std` when the sample
standard deviation is positive, else 0; with a short window, 0. -/
def spread_z (mops : MathOps) (s : ℚ) (use_hist : List ℚ) (lookback : Int) : ℚ :=
  if ((use_hist.length : Int)) ≥ max (Int.fdiv lookback 2) 8 then
    let m := use_hist.sum / (use_hist.length : ℚ)
    let var := (use_hist.map fun x => (x - m) * (x - m)).sum /
      ((max 1 ((use_hist.length : Int) - 1) : Int) : ℚ)
    let std := mops.sqrt (max var 0)
    if std > 0 then (s - m) / std else 0
  else 0

/-! ## Claim C2 — degenerate arithmetic -/

/-- C2 counterexample: `check_leverage` called with NAV = 0 raises
(`ValueError("NAV must be positive")`) instead of returning a neutral
value, refuting "every risk-guard ... called with NAV = 0 returns or
degrades to a neutral value rather than raising". -/
theorem C2_counterexample_check_leverage_raises_on_zero_nav :
    check_leverage 0 0 0 1 = .error "NAV must be positive" := by
  simp [check_leverage]

/-- C2 (amended): the *target-computation* functions resolve degenerate
arithmetic to neutral values without raising — Mode A/B targets at NAV = 0
are zero, risk-parity weights at zero vols degrade to `(+0.5, −0.5)`, the
pair z-score at zero variance (constant window) is 0, and Mode B's
denominator is floored at ε — but the hard risk guards deliberately raise
on NAV ≤ 0 (and on cap breaches at zero NAV) rather than degrading. -/
theorem C2_degenerate_cases (mops : MathOps) (hsqrt0 : mops.sqrt 0 = 0) :
    (∀ w L_base, targets_mode_a 0 w L_base = (0, 0, L_base)) ∧
      (∀ w L_max vt vp, (targets_mode_b 0 w L_max vt vp).1 = 0 ∧
        (targets_mode_b 0 w L_max vt vp).2.1 = 0) ∧
      (∀ sign_b sign_e, risk_parity_weights 0 0 sign_b sign_e = (1 / 2, -1 / 2)) ∧
      (∀ s hist lb s0, (∀ x ∈ hist, x = s0) → spread_z mops s hist lb = 0) ∧
      (∀ tb te L_max, check_leverage tb te 0 L_max = .error "NAV must be positive") ∧
      (∀ tb te cap, 0 < |tb| →
        check_asset_caps tb te 0 cap = .error "BTC target exceeds per-asset cap") := by
  refine ⟨?_, ?_, ?_, ?_, ?_, ?_⟩
  · intro w L_base
    simp [targets_mode_a]
  · intro w L_max vt vp
    constructor <;> simp [targets_mode_b]
  · intro sign_b sign_e
    simp [risk_parity_weights]
  · intro s hist lb s0 hconst
    unfold spread_z
    split_ifs with hlen
    · dsimp only
      have hsum0 : (hist.map fun x => (x - hist.sum / (hist.length : ℚ)) *
          (x - hist.sum / (hist.length : ℚ))).sum = 0 := by
        by_cases hne : hist.length = 0
        · rw [List.length_eq_zero] at hne
          subst hne
          simp
        · have hcast : (hist.length : ℚ) ≠ 0 := by exact_mod_cast hne
          have hm : hist.sum / (hist.length : ℚ) = s0 := by
            rw [List.sum_eq_card_nsmul hist s0 hconst, nsmul_eq_mul, mul_comm,
              mul_div_assoc, div_self hcast, mul_one]
          apply List.sum_eq_zero
          intro y hy
          rcases List.mem_map.mp hy with ⟨x, hx, hxy⟩
          rw [← hxy, hm, hconst x hx, sub_self, mul_zero]
      rw [hsum0, zero_div]
      simp [hsqrt0]
    · rfl
  · intro tb te L_max
    simp [check_leverage]
  · intro tb te cap htb
    simp only [check_asset_caps, mul_zero]
    rw [if_pos htb]

/-- C2 witness: the amended theorem applied at concrete degenerate inputs
(using the zero function as the abstract `sqrt`, which satisfies
`sqrt 0 = 0`). -/
theorem C2_degenerate_cases_witness :
    targets_mode_a 0 [("BTC", 1), ("ETH", -1)] 2 = (0, 0, 2) ∧
      risk_parity_weights 0 0 1 (-1) = (1 / 2, -1 / 2) ∧
      spread_z ⟨fun _ => 0, fun _ => 0⟩ 1 [1, 1, 1, 1, 1, 1, 1, 1] 16 = 0 ∧
      check_leverage 1 1 0 10 = .error "NAV must be positive" :=
  ⟨(C2_degenerate_cases ⟨fun _ => 0, fun _ => 0⟩ rfl).1 _ _,
    (C2_degenerate_cases ⟨fun _ => 0, fun _ => 0⟩ rfl).2.2.1 _ _,
    (C2_degenerate_cases ⟨fun _ => 0, fun _ => 0⟩ rfl).2.2.2.1 1 _ 16 1
      (by intro x hx; fin_cases hx <;> rfl),
    (C2_degenerate_cases ⟨fun _ => 0, fun _ => 0⟩ rfl).2.2.2.2.1 1 1 10⟩

/-! ## Claim C9 — Mode B risk parity and leverage -/

/-- The Mode B block of `engine_tick` (`src/hl-vix-etf/core/engine.py`):
risk-parity weights from the EWMA sigmas, proxy vol as the quadrature
combination of the weighted asset vols (in percent), and
`L = min(L_max, max(v_target,0) / max(v_proxy, 1e-6))`. -/
def engine_modeB_L (mops : MathOps) (sig_b sig_e sign_b sign_e L_max v_target_pct : ℚ) : ℚ :=
  let w := risk_parity_weights sig_b sig_e sign_b sign_e
  let v_proxy_pct :=
    100 * mops.sqrt ((w.1 * sig_b) * (w.1 * sig_b) + (w.2 * sig_e) * (w.2 * sig_e))
  min L_max (max v_target_pct 0 / max v_proxy_pct (1 / 1000000))

/-- Modelled from the spec (claim C9's formula, for comparison with the
source): `w = sign * (1/σ) / (|1/σ_b| + |1/σ_e|)`, with the exact
`(+0.5, −0.5)` split when both standard deviations are zero. -/
def claimC9_weights (sig_b sig_e sign_b sign_e : ℚ) : ℚ × ℚ :=
  if sig_b = 0 ∧ sig_e = 0 then (1 / 2, -1 / 2)
  else (sign_b * (1 / sig_b) / (|1 / sig_b| + |1 / sig_e|),
    sign_e * (1 / sig_e) / (|1 / sig_b| + |1 / sig_e|))

/-- Modelled from the spec (claim C9's formula):
`L = min(L_max, targetVolPct / max(proxyVolPct, ε))` with `proxyVolPct` the
quadrature combination (in percent) of the weighted asset vols. -/
def claimC9_modeB_L (mops : MathOps) (sig_b sig_e sign_b sign_e L_max v_target_pct : ℚ) : ℚ :=
  let w := claimC9_weights sig_b sig_e sign_b sign_e
  let proxy :=
    100 * mops.sqrt ((w.1 * sig_b) * (w.1 * sig_b) + (w.2 * sig_e) * (w.2 * sig_e))
  min L_max (v_target_pct / max proxy (1 / 1000000))

/-- C9 counterexample: the code floors each positive sigma at `1e-9` before
inverting, so for `σ_b = 1e-10` the produced BTC weight is
`10^9/(10^9+1)`, not the claimed `1/σ_b`-based `10^10/(10^10+1)`. -/
theorem C9_counterexample_sigma_floor :
    risk_parity_weights (1 / 10000000000) 1 1 (-1) ≠
      claimC9_weights (1 / 10000000000) 1 1 (-1) := by
  have h1 : risk_parity_weights (1 / 10000000000) 1 1 (-1) =
      (1000000000 / 1000000001, -(1 / 1000000001)) := by
    norm_num [risk_parity_weights]
  have h2 : claimC9_weights (1 / 10000000000) 1 1 (-1) =
      (10000000000 / 10000000001, -(1 / 10000000001)) := by
    norm_num [claimC9_weights]
  rw [h1, h2]
  intro h
  rw [Prod.mk.injEq] at h
  have := h.1
  norm_num at this

/-- C9 (amended): for ±1 caller signs, nonnegative target vol, and sigmas
that are either zero or at least the `1e-9` floor (so the floor is
inactive), the Mode B solver returns exactly the spec's formula
`w = sign * (1/σ) / (|1/σ_b| + |1/σ_e|)` — with `1/0` read as the neutral 0
so that a vanished accumulator contributes no weight — degenerating to
`(+0.5, −0.5)` when both sigmas are zero, and the Mode B leverage equals
`min(L_max, targetVolPct / max(proxyVolPct, ε))` with `proxyVolPct` the
quadrature combination of the weighted asset vols. (For `0 < σ < 1e-9` the
code instead uses `1/1e-9`, as the counterexample shows.) -/
theorem C9_mode_b_risk_parity_and_leverage (mops : MathOps)
    (sig_b sig_e sign_b sign_e L_max vt : ℚ)
    (hb : sig_b = 0 ∨ (1 / 1000000000 : ℚ) ≤ sig_b)
    (he : sig_e = 0 ∨ (1 / 1000000000 : ℚ) ≤ sig_e)
    (hsb : sign_b = 1 ∨ sign_b = -1)
    (hse : sign_e = 1 ∨ sign_e = -1)
    (hvt : 0 ≤ vt) :
    risk_parity_weights sig_b sig_e sign_b sign_e =
        claimC9_weights sig_b sig_e sign_b sign_e ∧
      engine_modeB_L mops sig_b sig_e sign_b sign_e L_max vt =
        claimC9_modeB_L mops sig_b sig_e sign_b sign_e L_max vt := by
  have e9 : (0 : ℚ) < 1 / 1000000000 := by norm_num
  have hb0 : 0 ≤ sig_b := by
    rcases hb with rfl | h
    · exact le_refl 0
    · exact le_trans e9.le h
  have he0 : 0 ≤ sig_e := by
    rcases he with rfl | h
    · exact le_refl 0
    · exact le_trans e9.le h
  have hinvb : (if sig_b > 0 then 1 / max sig_b (1 / 1000000000) else 0) = 1 / sig_b := by
    rcases hb with rfl | h
    · simp
    · rw [if_pos (lt_of_lt_of_le e9 h), max_eq_left h]
  have hinve : (if sig_e > 0 then 1 / max sig_e (1 / 1000000000) else 0) = 1 / sig_e := by
    rcases he with rfl | h
    · simp
    · rw [if_pos (lt_of_lt_of_le e9 h), max_eq_left h]
  have hsgnb : (if sign_b ≥ 0 then (1 : ℚ) else -1) = sign_b := by
    rcases hsb with rfl | rfl <;> norm_num
  have hsgne : (if sign_e ≥ 0 then (1 : ℚ) else -1) = sign_e := by
    rcases hse with rfl | rfl <;> norm_num
  have habsb : |sign_b| = 1 := by rcases hsb with rfl | rfl <;> norm_num
  have habse : |sign_e| = 1 := by rcases hse with rfl | rfl <;> norm_num
  have habs1 : |1 / sig_b| = 1 / sig_b := abs_of_nonneg (one_div_nonneg.mpr hb0)
  have habs2 : |1 / sig_e| = 1 / sig_e := abs_of_nonneg (one_div_nonneg.mpr he0)
  have hw : risk_parity_weights sig_b sig_e sign_b sign_e =
      claimC9_weights sig_b sig_e sign_b sign_e := by
    unfold risk_parity_weights claimC9_weights
    dsimp only
    rw [hinvb, hinve, hsgnb, hsgne]
    have hs : |1 / sig_b * sign_b| + |1 / sig_e * sign_e| = 1 / sig_b + 1 / sig_e := by
      rw [abs_mul, abs_mul, habsb, habse, mul_one, mul_one, habs1, habs2]
    rw [hs, habs1, habs2]
    by_cases hz : 1 / sig_b + 1 / sig_e = 0
    · rw [if_pos hz]
      have h1 : (0 : ℚ) ≤ 1 / sig_b := one_div_nonneg.mpr hb0
      have h2 : (0 : ℚ) ≤ 1 / sig_e := one_div_nonneg.mpr he0
      have hbz : sig_b = 0 := by
        have hx : 1 / sig_b = 0 := by linarith
        rcases div_eq_zero_iff.mp hx with h | h
        · norm_num at h
        · exact h
      have hez : sig_e = 0 := by
        have hx : 1 / sig_e = 0 := by linarith
        rcases div_eq_zero_iff.mp hx with h | h
        · norm_num at h
        · exact h
      rw [if_pos ⟨hbz, hez⟩]
    · rw [if_neg hz]
      have hnotboth : ¬(sig_b = 0 ∧ sig_e = 0) := by
        rintro ⟨h1, h2⟩
        apply hz
        rw [h1, h2]
        norm_num
      rw [if_neg hnotboth, Prod.mk.injEq]
      constructor <;> ring
  refine ⟨hw, ?_⟩
  unfold engine_modeB_L claimC9_modeB_L
  rw [hw, max_eq_left hvt]

/-- C9 witness: the amended theorem at σ_b = 1/1000, σ_e = 1/500, signs
(+1, −1), L_max = 3, target vol 10, with the zero function as the abstract
sqrt. -/
theorem C9_mode_b_risk_parity_and_leverage_witness :
    risk_parity_weights (1 / 1000) (1 / 500) 1 (-1) =
        claimC9_weights (1 / 1000) (1 / 500) 1 (-1) ∧
      engine_modeB_L ⟨fun _ => 0, fun _ => 0⟩ (1 / 1000) (1 / 500) 1 (-1) 3 10 =
        claimC9_modeB_L ⟨fun _ => 0, fun _ => 0⟩ (1 / 1000) (1 / 500) 1 (-1) 3 10 :=
  C9_mode_b_risk_parity_and_leverage ⟨fun _ => 0, fun _ => 0⟩ (1 / 1000) (1 / 500)
    1 (-1) 3 10 (Or.inr (by norm_num)) (Or.inr (by norm_num)) (Or.inl rfl)
    (Or.inr rfl) (by norm_num)

/-! ## Claim C6 — pair-breakout regime state machine -/

/-- The regime-transition block of `compute_targets_pair_breakout`
(`src/backtest/engine.py`, the "Regime logic with hysteresis and min-hold"
section): given the current nav (e6), the spread z-score of this
evaluation, and the stored state, produce the updated state. In `long` /
`short`, the stop-loss / take-profit check (NAV move since entry in bps,
floor division) runs first and may reset the regime to `neutral`; the
min-hold / `k_out` exit logic then runs on the (possibly reset) hold
counter and may overwrite the regime again, exactly as in the source. -/
def regime_step (pp : PairParams) (nav : Int) (z : ℚ) (st : PairState) :
    PairState :=
  let hold := st.hold
  let entry := st.entry_nav_e6.getD nav
  match st.regime with
  | .neutral =>
    if pp.k_in > 0 ∧ z ≥ pp.k_in then ⟨.long, 0, some nav⟩
    else if pp.k_in > 0 ∧ z ≤ -pp.k_in then ⟨.short, 0, some nav⟩
    else ⟨.neutral, hold, some entry⟩
  | .long =>
    let r1h1 : Regime × Int :=
      if entry > 0 then
        let navDeltaBps := Int.fdiv ((nav - entry) * 10000) entry
        if pp.regimeStopBps > 0 ∧ (navDeltaBps : ℚ) ≤ -pp.regimeStopBps then
          (.neutral, 0)
        else if pp.regimeTPBps > 0 ∧ (navDeltaBps : ℚ) ≥ pp.regimeTPBps then
          (.neutral, 0)
        else (.long, hold)
      else (.long, hold)
    if r1h1.2 < pp.minHoldSteps then ⟨r1h1.1, r1h1.2 + 1, some entry⟩
    else if |z| ≤ pp.k_out then ⟨.neutral, 0, some entry⟩
    else ⟨r1h1.1, r1h1.2 + 1, some entry⟩
  | .short =>
    let r1h1 : Regime × Int :=
      if entry > 0 then
        let navDeltaBps := Int.fdiv ((nav - entry) * 10000) entry
        if pp.regimeStopBps > 0 ∧ (navDeltaBps : ℚ) ≤ -pp.regimeStopBps then
          (.neutral, 0)
        else if pp.regimeTPBps > 0 ∧ (navDeltaBps : ℚ) ≥ pp.regimeTPBps then
          (.neutral, 0)
        else (.short, hold)
      else (.short, hold)
    if r1h1.2 < pp.minHoldSteps then ⟨r1h1.1, r1h1.2 + 1, some entry⟩
    else if |z| ≤ pp.k_out then ⟨.neutral, 0, some entry⟩
    else ⟨r1h1.1, r1h1.2 + 1, some entry⟩

/-- Iterated regime evaluation over a list of `(nav, z)` observations. -/
def regime_iter (pp : PairParams) (steps : List (Int × ℚ)) (st : PairState) :
    PairState :=
  steps.foldl (fun s p => regime_step pp p.1 p.2 s) st

/-- Default parameters (k_in 2, k_out 1) used in the C6 counterexample. -/
def c6_pp : PairParams := ⟨24, 2, 1, 0, 0, 50, 100, 100, 1 / 5, 5, false⟩

/-- C6 counterexample: an evaluation step in `neutral` with `z = -3`, which
is strictly below `k_in = 2`, does not leave the regime neutral — it
transitions directly to `short` (the claim's "every evaluation step with
z < k_in leaves the regime neutral" overlooks the short-entry branch
`z ≤ -k_in`). -/
theorem C6_counterexample_short_entry_below_k_in :
    (-3 : ℚ) < c6_pp.k_in ∧
      regime_step c6_pp 1000000 (-3) ⟨.neutral, 0, none⟩ =
        ⟨.short, 0, some 1000000⟩ := by
  constructor
  · norm_num [c6_pp]
  · norm_num [regime_step, c6_pp]

/-- C6 (amended): for the pair-breakout regime machine, (i) starting in
`neutral`, any sequence of evaluations whose z-scores all satisfy
`-k_in < z < k_in` leaves the regime neutral indefinitely; (ii) an
evaluation in `neutral` with `k_in > 0` and `z ≥ k_in` sets the regime to
`long` in that same step; (iii) no single evaluation step transitions
directly from `long` to `short` or from `short` to `long`. (The original
claim's entry/persistence condition `z < k_in` must be two-sided, since
`z ≤ -k_in` enters `short`.) -/
theorem C6_regime_machine :
    (∀ (pp : PairParams) (steps : List (Int × ℚ)) (st : PairState),
      st.regime = .neutral → (∀ p ∈ steps, -pp.k_in < p.2 ∧ p.2 < pp.k_in) →
        (regime_iter pp steps st).regime = .neutral) ∧
      (∀ (pp : PairParams) (nav : Int) (z : ℚ) (st : PairState),
        st.regime = .neutral → pp.k_in > 0 → z ≥ pp.k_in →
          (regime_step pp nav z st).regime = .long) ∧
      (∀ (pp : PairParams) (nav : Int) (z : ℚ) (st : PairState),
        (st.regime = .long → (regime_step pp nav z st).regime ≠ .short) ∧
          (st.regime = .short → (regime_step pp nav z st).regime ≠ .long)) := by
  have hneutral : ∀ (pp : PairParams) (nav : Int) (z : ℚ) (st : PairState),
      st.regime = .neutral → -pp.k_in < z → z < pp.k_in →
        (regime_step pp nav z st).regime = .neutral := by
    intro pp nav z st hr h1 h2
    obtain ⟨r, hold, entry⟩ := st
    cases hr
    unfold regime_step
    have hc1 : ¬(pp.k_in > 0 ∧ z ≥ pp.k_in) := by
      rintro ⟨-, hz⟩
      exact absurd h2 (not_lt.mpr hz)
    have hc2 : ¬(pp.k_in > 0 ∧ z ≤ -pp.k_in) := by
      rintro ⟨-, hz⟩
      exact absurd h1 (not_lt.mpr hz)
    simp [hc1, hc2]
  refine ⟨?_, ?_, ?_⟩
  · intro pp steps
    induction steps with
    | nil => intro st hr _; simpa [regime_iter] using hr
    | cons p rest ih =>
      intro st hr hall
      have hstep := hneutral pp p.1 p.2 st hr (hall p (List.mem_cons_self p rest)).1
        (hall p (List.mem_cons_self p rest)).2
      have : regime_iter pp (p :: rest) st =
          regime_iter pp rest (regime_step pp p.1 p.2 st) := rfl
      rw [this]
      exact ih _ hstep fun q hq => hall q (List.mem_cons_of_mem p hq)
  · intro pp nav z st hr hk hz
    obtain ⟨r, hold, entry⟩ := st
    cases hr
    unfold regime_step
    simp [hk, hz]
  · intro pp nav z st
    constructor <;> intro hr <;> obtain ⟨r, hold, entry⟩ := st <;> cases hr <;>
      (unfold regime_step; dsimp only; split_ifs <;> simp)

/-- C6 witness: the amended theorem's three parts at concrete inputs —
neutral persists across `z = 1, -1, 0` (all within ±k_in = ±2), `z = 3`
enters `long` in one step, and a `long` state never steps directly to
`short`. -/
theorem C6_regime_machine_witness :
    (regime_iter c6_pp [(100, 1), (100, -1), (100, 0)] ⟨.neutral, 0, none⟩).regime =
        .neutral ∧
      (regime_step c6_pp 100 3 ⟨.neutral, 0, none⟩).regime = .long ∧
      (regime_step c6_pp 100 (-5) ⟨.long, 7, some 100⟩).regime ≠ .short :=
  ⟨C6_regime_machine.1 c6_pp [(100, 1), (100, -1), (100, 0)] ⟨.neutral, 0, none⟩ rfl
      (by intro p hp; fin_cases hp <;> constructor <;> norm_num [c6_pp]),
    C6_regime_machine.2.1 c6_pp 100 3 ⟨.neutral, 0, none⟩ rfl (by norm_num [c6_pp])
      (by norm_num [c6_pp]),
    (C6_regime_machine.2.2 c6_pp 100 (-5) ⟨.long, 7, some 100⟩).1 rfl⟩

/-! ## `src/backtest/engine.py` — pair target sizer and the backtest loop -/

/-- `_safe_beta(ret_a, ret_b, beta_min, beta_max)`: OLS slope of A's returns
on B's over the window, clamped to the beta bounds; 1.0 on short/mismatched
history or nonpositive variance. (The float `isfinite` guard is vacuous
over exact rationals.) -/
def safe_beta (ret_a ret_b : List ℚ) (beta_min beta_max : ℚ) : ℚ :=
  if ret_a.length ≠ ret_b.length ∨ ret_a.length < 2 then 1
  else
    let ma := ret_a.sum / (ret_a.length : ℚ)
    let mb := ret_b.sum / (ret_b.length : ℚ)
    let cov := ((ret_a.zip ret_b).map fun p => (p.1 - ma) * (p.2 - mb)).sum /
      ((ret_a.length : ℚ) - 1)
    let var_b := (ret_b.map fun x => (x - mb) * (x - mb)).sum /
      ((ret_b.length : ℚ) - 1)
    if var_b ≤ 0 then 1
    else min (max (cov / var_b) beta_min) beta_max

/-- Python `lst[-n:]` for an integer `n`: the last `n` elements when
`n > 0` (the whole list when `n ≥ len`), and `lst[(-n):] = drop (-n)`
when `n ≤ 0` (in particular `lst[-0:]` is the whole list). -/
def lastSlice {α : Type} (n : Int) (l : List α) : List α :=
  if 0 < n then l.drop (l.length - n.toNat) else l.drop (-n).toNat

/-- The metadata dict returned by `compute_targets_pair_breakout`
(`{"regime": ..., "neutralSkipBps": ...}`); `⟨none, 0⟩` models the empty
`meta_info = {}` of the non-pair branch. -/
structure PairMeta where
  regime : Option Regime
  neutralSkipBps : ℚ
deriving Repr

/-- `compute_targets_pair_breakout` of `src/backtest/engine.py`: hedge
ratio via rolling beta, beta-split base notionals preserving gross
`2*nav*leverage`, log-spread z-score over the trailing window, the regime
state machine (`regime_step`), and the breakout skew. Returns the target
dict, the metadata, and the mutated pair state and spread history. -/
def compute_targets_pair_breakout (mops : MathOps) (nav : Int)
    (last_px : List (String × ℚ)) (ret_hist : List (String × List ℚ))
    (symA symB : String) (pp : PairParams) (cfg : Config) (st : PairState)
    (spread_hist : List ((String × String) × List ℚ)) :
    List (String × Int) × PairMeta × PairState ×
      List ((String × String) × List ℚ) :=
  if (dlookup symA last_px).isNone ∨ (dlookup symB last_px).isNone then
    ([], ⟨some st.regime, pp.neutralDriftThresholdBps⟩, st, spread_hist)
  else
    let ra := lastSlice pp.lookback ((dlookup symA ret_hist).getD [])
    let rb := lastSlice pp.lookback ((dlookup symB ret_hist).getD [])
    let beta := if pp.useBetaHedge then safe_beta ra rb pp.betaMin pp.betaMax else 1
    let total_gross_e6 := pyInt (((2 * nav : Int) : ℚ) * cfg.leverage)
    let ratio := max beta (1 / 1000000)
    let s_usd_e6 := pyInt ((total_gross_e6 : ℚ) / (ratio + 1))
    let l_usd_e6 := total_gross_e6 - s_usd_e6
    let pxA := (dlookup symA last_px).getD 0
    let pxB := (dlookup symB last_px).getD 0
    let sVal := mops.log (max pxA (1 / 1000000000000) / max pxB (1 / 1000000000000))
    let hist := ((dlookup (symA, symB) spread_hist).getD []) ++ [sVal]
    let spread_hist1 := dinsert spread_hist (symA, symB) hist
    let z := spread_z mops sVal (lastSlice pp.lookback hist) pp.lookback
    let st1 := regime_step pp nav z st
    let skew : Int :=
      if (st1.regime = .long ∨ st1.regime = .short) ∧ pp.k_in > 0 ∧ |z| > pp.k_in
      then
        let scale := min ((|z| - pp.k_in) / max pp.k_in (1 / 1000000000)) 1
        let sk := pyInt ((nav : ℚ) * (pp.maxSkewBps / 10000) * scale * (E6 : ℚ))
        if st1.regime = .short then -sk else sk
      else 0
    let ls : Int × Int :=
      if skew ≠ 0 then
        let d := Int.fdiv skew 2
        (max 0 (l_usd_e6 + d), max 0 (s_usd_e6 - d))
      else (l_usd_e6, s_usd_e6)
    ([(symA, ls.1), (symB, -ls.2)],
      ⟨some st1.regime, pp.neutralDriftThresholdBps⟩, st1, spread_hist1)

/-- One long-format price record `(timestamp, symbol, close, funding_bps)`
as consumed by `backtest`. -/
structure PricePoint where
  ts : Int
  sym : String
  px : ℚ
  fbps : ℚ
deriving Repr

/-- `rows_by_ts[ts]`: the per-timestamp symbol→price dict, built by
last-write-wins insertion in input order. -/
def rowsFor (prices : List PricePoint) (ts : Int) : List (String × ℚ) :=
  ((prices.filter fun p => p.ts == ts).map fun p => (p.sym, p.px)).foldl
    (fun acc q => dinsert acc q.1 q.2) []

/-- `funding_bps_by_ts[ts]`: per-timestamp symbol→funding dict; only
records with nonzero funding are entered, so `ts in funding_bps_by_ts` iff
this dict is nonempty. -/
def fundingFor (prices : List PricePoint) (ts : Int) : List (String × ℚ) :=
  ((prices.filter fun p => p.ts == ts && p.fbps != 0).map fun p => (p.sym, p.fbps)).foldl
    (fun acc q => dinsert acc q.1 q.2) []

/-- Ascending insertion (dropping duplicates) used to model
`sorted(set(...))`. -/
def insertSorted {α : Type} [LinearOrder α] (x : α) : List α → List α
  | [] => [x]
  | y :: ys => if x < y then x :: y :: ys else if x = y then y :: ys else y :: insertSorted x ys

/-- `timeline = sorted(rows_by_ts.keys())`. -/
def timelineOf (prices : List PricePoint) : List Int :=
  (prices.map (·.ts)).foldl (fun acc t => insertSorted t acc) []

/-- `symbols = sorted(set(sym for ...))`. -/
def symbolsOf (prices : List PricePoint) : List String :=
  (prices.map (·.sym)).foldl (fun acc s => insertSorted s acc) []

/-- The mutable state of the `backtest` loop: last prices, positions (USD
e6), NAV (USD e6), the cooldown timestamp, the return and spread
histories, the pair regime state, and the Python local variable `final`
(`none` models it being still unbound — reading it then is a `NameError`). -/
structure BTState where
  last_px : List (String × ℚ)
  pos : List (String × Int)
  nav : Int
  last_rebal_ts : Option Int
  ret_hist : List (String × List ℚ)
  spread_hist : List ((String × String) × List ℚ)
  pair_state : PairState
  finalVar : Option (List (String × Int))
deriving Repr

/-- Step 1 of the backtest loop: for each symbol with both a current and a
previous price, accumulate `int(pos * ret)` into the pnl and append the
return to the symbol's history; a zero previous price is Python's
`ZeroDivisionError`. -/
def pnlFold (row last_px : List (String × ℚ)) (pos : List (String × Int)) :
    List String → Int × List (String × List ℚ) →
      Except String (Int × List (String × List ℚ))
  | [], acc => .ok acc
  | s :: rest, acc =>
    match dlookup s row, dlookup s last_px with
    | some px, some lp =>
      if lp = 0 then .error "ZeroDivisionError: float division by zero"
      else
        pnlFold row last_px pos rest
          (acc.1 + pyInt (((dgetD pos s 0 : Int) : ℚ) * (px / lp - 1)),
            dappend acc.2 s (px / lp - 1))
    | _, _ => pnlFold row last_px pos rest acc

/-- The target-and-guards block of one backtest step: dispatch on the
strategy type, compute raw targets (pair or fixed-bucket), run
`apply_guards`, and produce the metadata, the (possibly still unbound)
`final` position dict, and the mutated pair state and spread history. In
the pair branch with fewer than two symbols the Python code assigns only
`targets = {}`, leaving `final` as whatever it was — unbound on the first
rebalance. -/
def btBranch (mops : MathOps) (symbols : List String) (strat : Strategy)
    (cfg : Config) (st : BTState) (nav2 : Int)
    (last_px1 : List (String × ℚ)) (ret_hist1 : List (String × List ℚ)) :
    PairMeta × Option (List (String × Int)) × PairState ×
      List ((String × String) × List ℚ) :=
  if strat.stype = some "pair_neutral_breakout" then
    let syms := if strat.symbols.isEmpty then symbols else strat.symbols
    if syms.length < 2 then (⟨none, 0⟩, st.finalVar, st.pair_state, st.spread_hist)
    else
      let r := compute_targets_pair_breakout mops nav2 last_px1 ret_hist1
        (syms.getD 0 "") (syms.getD 1 "") strat.params cfg st.pair_state
        st.spread_hist
      let gf := apply_guards nav2 st.pos r.1 cfg
      (r.2.1, some gf.2, r.2.2.1, r.2.2.2)
  else
    let gf := guard_and_targets nav2 st.pos strat cfg
    (⟨none, 0⟩, some gf.2, st.pair_state, st.spread_hist)

/-- The remainder of one backtest step after the pnl fold: funding accrual,
the cooldown check, target computation and guards, the two skip branches,
and the fee/fill application, exactly as in `backtest`'s loop body. -/
def btStepRest (mops : MathOps) (prices : List PricePoint)
    (symbols : List String) (strat : Strategy) (cfg : Config) (st : BTState)
    (ts : Int) (pnl : Int) (ret_hist1 : List (String × List ℚ)) :
    Except String BTState :=
  let nav1 := st.nav + pnl
  let last_px1 := (rowsFor prices ts).foldl (fun acc q => dinsert acc q.1 q.2) st.last_px
  let fentries := fundingFor prices ts
  let nav2 :=
    if fentries.isEmpty then nav1
    else
      let funding_usd := fentries.foldl (fun acc q =>
        if dgetD st.pos q.1 0 ≠ 0 ∧ q.2 ≠ 0 then
          acc + (-(((dgetD st.pos q.1 0 : Int) : ℚ) / (E6 : ℚ)) * (q.2 / 10000))
        else acc) 0
      nav1 + pyInt (funding_usd * (E6 : ℚ))
  let doRebal : Bool :=
    match st.last_rebal_ts with
    | none => true
    | some t0 => decide (ts - t0 ≥ cfg.cooldownSeconds)
  if doRebal then
    let branch := btBranch mops symbols strat cfg st nav2 last_px1 ret_hist1
    match branch.2.1 with
    | none => .error "NameError: name 'final' is not defined"
    | some finalPos =>
      let deltas := finalPos.map fun p => (p.1, p.2 - dgetD st.pos p.1 0)
      let gross := (deltas.map fun p => |p.2|).sum
      if branch.1.regime = some .neutral ∧ nav2 > 0 ∧ branch.1.neutralSkipBps > 0 ∧
          ((Int.fdiv (gross * 10000) (max nav2 1) : Int) : ℚ) < branch.1.neutralSkipBps
      then
        .ok ⟨last_px1, st.pos, nav2, st.last_rebal_ts, ret_hist1, branch.2.2.2,
          branch.2.2.1, branch.2.1⟩
      else if cfg.rebalanceThresholdBps > 0 ∧ nav2 > 0 ∧
          ((Int.fdiv (gross * 10000) (max nav2 1) : Int) : ℚ) < cfg.rebalanceThresholdBps
      then
        .ok ⟨last_px1, st.pos, nav2, st.last_rebal_ts, ret_hist1, branch.2.2.2,
          branch.2.2.1, branch.2.1⟩
      else
        let fee_usd := ((gross : ℚ) / (E6 : ℚ)) * ((cfg.feeBps + cfg.slipBps) / 10000)
        let pos1 := finalPos.foldl (fun acc q => dinsert acc q.1 q.2) st.pos
        .ok ⟨last_px1, pos1, nav2 - pyInt (fee_usd * (E6 : ℚ)), some ts, ret_hist1,
          branch.2.2.2, branch.2.2.1, branch.2.1⟩
  else
    .ok ⟨last_px1, st.pos, nav2, st.last_rebal_ts, ret_hist1, st.spread_hist,
      st.pair_state, st.finalVar⟩

/-- One full backtest step at timestamp `ts`. -/
def btStep (mops : MathOps) (prices : List PricePoint) (symbols : List String)
    (strat : Strategy) (cfg : Config) (st : BTState) (ts : Int) :
    Except String BTState :=
  match pnlFold (rowsFor prices ts) st.last_px st.pos symbols (0, st.ret_hist) with
  | .error e => .error e
  | .ok pr => btStepRest mops prices symbols strat cfg st ts pr.1 pr.2

/-- The chronological loop of `backtest`. -/
def runSteps (f : BTState → Int → Except String BTState) :
    List Int → BTState → Except String BTState
  | [], st => .ok st
  | t :: rest, st =>
    match f st t with
    | .error e => .error e
    | .ok st1 => runSteps f rest st1

/-- `backtest(prices, strat, cfg, start_nav_usd)`, reduced to the engine
state: returns the final NAV in e6 fixed point (the source reports
`nav / E6` and side metrics from the same variable). Initial state as in
the source: empty last prices, zero positions and empty return history per
symbol, `nav = int(start_nav_usd * E6)`, no cooldown timestamp, regime
`neutral` with `hold = 0` and no recorded entry. -/
def btInit (prices : List PricePoint) (start_nav_usd : ℚ) : BTState :=
  ⟨[], (symbolsOf prices).map fun s => (s, 0), pyInt (start_nav_usd * (E6 : ℚ)),
    none, (symbolsOf prices).map fun s => (s, []), [], ⟨.neutral, 0, none⟩, none⟩

def backtest (mops : MathOps) (prices : List PricePoint) (strat : Strategy)
    (cfg : Config) (start_nav_usd : ℚ) : Except String Int :=
  match runSteps (btStep mops prices (symbolsOf prices) strat cfg)
      (timelineOf prices) (btInit prices start_nav_usd) with
  | .error e => .error e
  | .ok st => .ok st.nav

/-! ## Claim C7 — NAV round-trip under constant prices -/

theorem foldl_dinsert_prop {α β : Type} [DecidableEq α] (P : α → β → Prop)
    (ents : List (α × β)) :
    ∀ acc : List (α × β), (∀ q ∈ acc, P q.1 q.2) → (∀ q ∈ ents, P q.1 q.2) →
      ∀ q ∈ ents.foldl (fun a p => dinsert a p.1 p.2) acc, P q.1 q.2 := by
  induction ents with
  | nil => intro acc hacc _ q hq; exact hacc q hq
  | cons p rest ih =>
    intro acc hacc hents q hq
    refine ih (dinsert acc p.1 p.2) ?_
      (fun r hr => hents r (List.mem_cons_of_mem _ hr)) q hq
    intro r hr
    rcases dinsert_mem hr with h | h
    · rw [h]
      exact hents p (List.mem_cons_self _ _)
    · exact hacc r h

theorem rowsFor_prop (P : String → ℚ → Prop) (prices : List PricePoint)
    (ts : Int) (h : ∀ p ∈ prices, P p.sym p.px) :
    ∀ q ∈ rowsFor prices ts, P q.1 q.2 := by
  unfold rowsFor
  refine foldl_dinsert_prop P _ [] (by intro q hq; cases hq) ?_
  intro q hq
  rcases List.mem_map.mp hq with ⟨p, hp, rfl⟩
  exact h p (List.mem_filter.mp hp).1

theorem fundingFor_eq_nil (prices : List PricePoint) (ts : Int)
    (h : ∀ p ∈ prices, p.fbps = 0) : fundingFor prices ts = [] := by
  unfold fundingFor
  have hf : (prices.filter fun p => p.ts == ts && p.fbps != 0) = [] := by
    rw [List.filter_eq_nil_iff]
    intro p hp
    simp [h p hp]
  rw [hf]
  rfl

theorem pnlFold_zero (row last_px : List (String × ℚ))
    (pos : List (String × Int)) (c : String → ℚ)
    (hrow : ∀ q ∈ row, q.2 = c q.1)
    (hlast : ∀ q ∈ last_px, q.2 = c q.1 ∧ 0 < q.2) :
    ∀ (symbols : List String) (k : Int) (rh : List (String × List ℚ)),
      ∃ rh1, pnlFold row last_px pos symbols (k, rh) = .ok (k, rh1) := by
  intro symbols
  induction symbols with
  | nil => intro k rh; exact ⟨rh, rfl⟩
  | cons s rest ih =>
    intro k rh
    rcases hr : dlookup s row with _ | px <;> rcases hl : dlookup s last_px with _ | lp
    · simpa only [pnlFold, hr, hl] using ih k rh
    · simpa only [pnlFold, hr, hl] using ih k rh
    · simpa only [pnlFold, hr, hl] using ih k rh
    · have hpx : px = c s := hrow _ (dlookup_mem hr)
      have hlp1 : lp = c s := (hlast _ (dlookup_mem hl)).1
      have hlp2 : (0 : ℚ) < lp := (hlast _ (dlookup_mem hl)).2
      have hcs : (0 : ℚ) < c s := hlp1 ▸ hlp2
      have hret : px / lp - 1 = 0 := by
        rw [hpx, hlp1, div_self (ne_of_gt hcs), sub_self]
      have hne : ¬(lp = 0) := ne_of_gt hlp2
      simp only [pnlFold, hr, hl, if_neg hne, hret, mul_zero, pyInt_zero, add_zero]
      exact ih k _

theorem btStepRest_nav (mops : MathOps) (prices : List PricePoint)
    (symbols : List String) (strat : Strategy) (cfg : Config) (st : BTState)
    (ts : Int) (pnl : Int) (rh1 : List (String × List ℚ))
    (hfund : ∀ p ∈ prices, p.fbps = 0)
    (hfee : cfg.feeBps = 0) (hslip : cfg.slipBps = 0) :
    ∀ st', btStepRest mops prices symbols strat cfg st ts pnl rh1 = .ok st' →
      st'.nav = st.nav + pnl ∧
        st'.last_px =
          (rowsFor prices ts).foldl (fun acc q => dinsert acc q.1 q.2) st.last_px := by
  intro st' h
  unfold btStepRest at h
  rw [fundingFor_eq_nil prices ts hfund, hfee, hslip] at h
  simp only [List.isEmpty_nil, if_true, add_zero, zero_div, mul_zero, zero_mul,
    pyInt_zero, sub_zero] at h
  split at h
  · split at h
    · simp at h
    · split at h
      · cases h
        exact ⟨rfl, rfl⟩
      · split at h
        · cases h
          exact ⟨rfl, rfl⟩
        · cases h
          exact ⟨rfl, rfl⟩
  · cases h
    exact ⟨rfl, rfl⟩


/-- The invariant of the C7 proof: the engine NAV never moves, and every
stored last price is the (positive) constant price of its symbol. -/
def NavInv (c : String → ℚ) (nav0 : Int) (st : BTState) : Prop :=
  st.nav = nav0 ∧ ∀ q ∈ st.last_px, q.2 = c q.1 ∧ 0 < q.2

theorem btStep_preserves (mops : MathOps) (prices : List PricePoint)
    (symbols : List String) (strat : Strategy) (cfg : Config)
    (c : String → ℚ) (nav0 : Int) (ts : Int) (st st' : BTState)
    (hpx : ∀ p ∈ prices, p.px = c p.sym) (hpos : ∀ p ∈ prices, 0 < p.px)
    (hfund : ∀ p ∈ prices, p.fbps = 0)
    (hfee : cfg.feeBps = 0) (hslip : cfg.slipBps = 0)
    (hInv : NavInv c nav0 st)
    (h : btStep mops prices symbols strat cfg st ts = .ok st') :
    NavInv c nav0 st' := by
  unfold btStep at h
  have hrowP : ∀ q ∈ rowsFor prices ts, q.2 = c q.1 ∧ 0 < q.2 :=
    rowsFor_prop (fun s q => q = c s ∧ 0 < q) prices ts
      fun p hp => ⟨hpx p hp, hpos p hp⟩
  obtain ⟨rh1, hpnl⟩ := pnlFold_zero (rowsFor prices ts) st.last_px st.pos c
    (fun q hq => (hrowP q hq).1) hInv.2 symbols 0 st.ret_hist
  rw [hpnl] at h
  obtain ⟨hnav, hlast⟩ :=
    btStepRest_nav mops prices symbols strat cfg st ts 0 rh1 hfund hfee hslip st' h
  constructor
  · rw [hnav, hInv.1, add_zero]
  · rw [hlast]
    exact foldl_dinsert_prop (fun s q => q = c s ∧ 0 < q) (rowsFor prices ts)
      st.last_px hInv.2 hrowP

theorem runSteps_preserves (f : BTState → Int → Except String BTState)
    (P : BTState → Prop)
    (hf : ∀ st ts st', P st → f st ts = .ok st' → P st') :
    ∀ (l : List Int) (st st'), P st → runSteps f l st = .ok st' → P st' := by
  intro l
  induction l with
  | nil =>
    intro st st' hP h
    unfold runSteps at h
    cases h
    exact hP
  | cons t rest ih =>
    intro st st' hP h
    unfold runSteps at h
    rcases hft : f st t with e | st1 <;> rw [hft] at h
    · simp at h
    · exact ih st1 st' (hf st t st1 hP hft) h

/-- C7: with every symbol's price constant (and positive) across all steps,
zero fees, zero slippage and all funding rates zero, any completed backtest
run ends with exactly its starting NAV (`int(start_nav_usd * E6)` in fixed
point), for every strategy and regardless of rebalancing activity: price
returns are identically zero, no funding row is recorded, and the fee
charge is zero on every rebalance. -/
theorem C7_constant_prices_nav_roundtrip (mops : MathOps)
    (prices : List PricePoint) (strat : Strategy) (cfg : Config)
    (start_nav_usd : ℚ) (c : String → ℚ)
    (hpx : ∀ p ∈ prices, p.px = c p.sym)
    (hpos : ∀ p ∈ prices, 0 < p.px)
    (hfund : ∀ p ∈ prices, p.fbps = 0)
    (hfee : cfg.feeBps = 0) (hslip : cfg.slipBps = 0) :
    ∀ n, backtest mops prices strat cfg start_nav_usd = .ok n →
      n = pyInt (start_nav_usd * (E6 : ℚ)) := by
  intro n h
  unfold backtest at h
  rcases hrun : runSteps (btStep mops prices (symbolsOf prices) strat cfg)
      (timelineOf prices) (btInit prices start_nav_usd) with e | stf <;>
    rw [hrun] at h
  · simp at h
  · have hInv : NavInv c (pyInt (start_nav_usd * (E6 : ℚ))) stf := by
      refine runSteps_preserves _ (NavInv c (pyInt (start_nav_usd * (E6 : ℚ))))
        (fun st ts st' hP hstep => btStep_preserves mops prices
          (symbolsOf prices) strat cfg c _ ts st st' hpx hpos hfund hfee hslip
          hP hstep) (timelineOf prices) (btInit prices start_nav_usd) stf ?_ hrun
      exact ⟨rfl, by intro q hq; cases hq⟩
    have hn : n = stf.nav := by
      cases h
      rfl
    rw [hn, hInv.1]

/-- The C7 witness price series: two symbols, one timestamp, constant
positive prices, zero funding. -/
def c7_prices : List PricePoint := [⟨0, "BTC", 100, 0⟩, ⟨0, "ETH", 50, 0⟩]

/-- The C7 witness strategy (fixed bucket, long BTC / short ETH). -/
def c7_strategy : Strategy :=
  ⟨none, [⟨"BTC", 10000⟩], [⟨"ETH", 10000⟩], [], defaultPairParams⟩

/-- The C7 witness config: zero fees and slippage, cooldown 0. -/
def c7_cfg : Config :=
  { turnoverCapBps := 10000, cooldownSeconds := 0, feeBps := 0, slipBps := 0,
    leverage := 1 }

/-- C7 witness: a concrete constant-price run (start NAV 1 USD = 1000000e-6)
completes with `.ok`, rebalances into a long-BTC/short-ETH position, and
ends with exactly the starting NAV, as the theorem demands. -/
theorem C7_constant_prices_nav_roundtrip_witness :
    backtest ⟨fun _ => 0, fun _ => 0⟩ c7_prices c7_strategy c7_cfg 1 = .ok 1000000 ∧
      (1000000 : Int) = pyInt ((1 : ℚ) * (E6 : ℚ)) := by
  have heval : backtest ⟨fun _ => 0, fun _ => 0⟩ c7_prices c7_strategy c7_cfg 1 =
      .ok 1000000 := by
    simp [backtest, btInit, runSteps, btStep, btStepRest, btBranch, pnlFold, rowsFor,
      fundingFor, timelineOf, symbolsOf, insertSorted, dinsert, dlookup, dgetD, dappend,
      guard_and_targets, apply_guards, clampAll, centerStep, turnoverStep, scalePair,
      grossOf, clamp_target, capE6, sumVals, daddAt, pyInt, E6, c7_prices, c7_strategy,
      c7_cfg]
  refine ⟨heval, ?_⟩
  exact C7_constant_prices_nav_roundtrip ⟨fun _ => 0, fun _ => 0⟩ c7_prices
    c7_strategy c7_cfg 1 (fun s => if s = "BTC" then 100 else 50)
    (by intro p hp; fin_cases hp <;> simp)
    (by intro p hp; fin_cases hp <;> norm_num)
    (by intro p hp; fin_cases hp <;> rfl)
    rfl rfl 1000000 heval
